import Mathlib

/-!
# Verification of the PixelArgon interactive editing core

Shallow embedding of `src/main.ts` (the frontend editing model of the
pixel-argon desktop app).  JavaScript numbers are modelled as rationals
(`ℚ`), integer counters as `ℕ`/`ℤ`, arrays as `List`, and the mutable
`state` record as the structure `AppState`.  Event handlers become pure
functions from state (plus the event's data) to state; the asynchronous
round-trips to the Tauri backend are modelled by passing the backend's
response (`ImageInfo`, applied path) as extra arguments to the success
path of the handler.
-/

namespace PixelArgon

/-- One freehand pixelation stroke: normalized points plus a radius, as in
the `PixelateStroke` interface of `main.ts`. -/
structure PixelateStroke where
  points : List (ℚ × ℚ)
  radius : ℚ
deriving DecidableEq, Repr

/-- The active tool, `AppState.tool` in `main.ts`. -/
inductive Tool
  | select
  | crop
  | pixelate
  | eyedropper
deriving DecidableEq, Repr

/-- Response of the backend `open_image` / `apply_edits` commands
(`ImageInfo` in `main.ts`); the preview surface is kept as its data URL.  -/
structure ImageInfo where
  width : ℕ
  height : ℕ
  data_url : String
deriving DecidableEq, Repr

/-- The mutable application state record (`AppState` / `state` in
`main.ts`).  Module-level gesture bookkeeping that lives outside the
`state` object in the source (`cropDragMode`, `cropStartCropX`, …) is
passed to the corresponding handler functions as arguments instead. -/
structure AppState where
  sourcePath : Option String
  imageWidth : ℕ
  imageHeight : ℕ
  tool : Tool
  -- View
  zoom : ℚ
  panX : ℚ
  panY : ℚ
  -- Crop (normalized 0..1)
  cropX : ℚ
  cropY : ℚ
  cropW : ℚ
  cropH : ℚ
  -- Target size
  targetWidth : ℚ
  targetHeight : ℚ
  lockAspect : Bool
  scaleMode : String
  -- Edits
  grayscale : Bool
  brightness : ℚ
  contrast : ℚ
  rotation : ℤ
  flipH : Bool
  flipV : Bool
  -- Pixelate
  pixelateStrokes : List PixelateStroke
  pixelateRedoStack : List PixelateStroke
  pixelateBrushSize : ℕ
  pixelateBlockSize : ℕ
  isPixelatePainting : Bool
  currentStroke : Option PixelateStroke
  -- Background removal
  bgEnabled : Bool
  bgColor : ℕ × ℕ × ℕ
  bgTolerance : ℚ
deriving DecidableEq, Repr

/-- The initial value of `state` in `main.ts`. -/
def initState : AppState where
  sourcePath := none
  imageWidth := 0
  imageHeight := 0
  tool := Tool.select
  zoom := 1
  panX := 0
  panY := 0
  cropX := 1/10
  cropY := 1/10
  cropW := 8/10
  cropH := 8/10
  targetWidth := 800
  targetHeight := 600
  lockAspect := false
  scaleMode := "scale_then_crop"
  grayscale := false
  brightness := 0
  contrast := 0
  rotation := 0
  flipH := false
  flipV := false
  pixelateStrokes := []
  pixelateRedoStack := []
  pixelateBrushSize := 20
  pixelateBlockSize := 10
  isPixelatePainting := false
  currentStroke := none
  bgEnabled := false
  bgColor := (0, 0, 0)
  bgTolerance := 30

/-! ## Crop drag (`handleCropDrag`, main.ts lines 663–712) -/

/-- A crop rectangle in normalized coordinates. -/
structure CropRect where
  x : ℚ
  y : ℚ
  w : ℚ
  h : ℚ
deriving DecidableEq, Repr

/-- The crop drag mode (`cropDragMode` in `main.ts`): `"move"` or one of
the eight compass handle strings. -/
inductive DragMode
  | move
  | n
  | s
  | e
  | w
  | ne
  | nw
  | se
  | sw
deriving DecidableEq, Repr

/-- `mode.includes("w")` over the nine possible mode strings. -/
def DragMode.hasW : DragMode → Bool
  | .w => true
  | .nw => true
  | .sw => true
  | _ => false

/-- `mode.includes("e")` over the nine possible mode strings. -/
def DragMode.hasE : DragMode → Bool
  | .e => true
  | .ne => true
  | .se => true
  | _ => false

/-- `mode.includes("n")` over the nine possible mode strings. -/
def DragMode.hasN : DragMode → Bool
  | .n => true
  | .ne => true
  | .nw => true
  | _ => false

/-- `mode.includes("s")` over the nine possible mode strings. -/
def DragMode.hasS : DragMode → Bool
  | .s => true
  | .se => true
  | .sw => true
  | _ => false

/-- The unclamped part of `handleCropDrag`: apply the drag deltas per
mode component, then the aspect-lock recomputation.  `tw`/`th` are
`state.targetWidth`/`state.targetHeight`; `r0` is the crop-rectangle
snapshot taken at gesture start. -/
def rawCropDrag (mode : DragMode) (dx dy : ℚ) (lockAspect : Bool)
    (tw th : ℚ) (r0 : CropRect) : CropRect :=
  let r1 : CropRect :=
    if mode = DragMode.move then
      { r0 with x := r0.x + dx, y := r0.y + dy }
    else
      let x1 := if mode.hasW then r0.x + dx else r0.x
      let w1 := if mode.hasW then r0.w - dx else r0.w
      let w2 := if mode.hasE then w1 + dx else w1
      let y1 := if mode.hasN then r0.y + dy else r0.y
      let h1 := if mode.hasN then r0.h - dy else r0.h
      let h2 := if mode.hasS then h1 + dy else h1
      ⟨x1, y1, w2, h2⟩
  if lockAspect ∧ mode ≠ DragMode.move then
    let aspect := tw / th
    if mode.hasE || mode.hasW then
      { r1 with h := r1.w / aspect }
    else
      { r1 with w := r1.h * aspect }
  else r1

/-- The final clamping stage of `handleCropDrag`: width/height are clamped
into `[0.02, 1]` first, then the origin into `[0, 1-w] × [0, 1-h]`. -/
def clampCrop (r : CropRect) : CropRect :=
  let w := max (2/100) (min 1 r.w)
  let h := max (2/100) (min 1 r.h)
  let x := max 0 (min (1 - w) r.x)
  let y := max 0 (min (1 - h) r.y)
  ⟨x, y, w, h⟩

/-- `handleCropDrag(dx, dy)`: the raw per-mode drag update followed by the
clamping stage, exactly as in the source. -/
def handleCropDrag (mode : DragMode) (dx dy : ℚ) (lockAspect : Bool)
    (tw th : ℚ) (r0 : CropRect) : CropRect :=
  clampCrop (rawCropDrag mode dx dy lockAspect tw th r0)

theorem clampCrop_spec (r : CropRect) :
    0 ≤ (clampCrop r).x ∧ 0 ≤ (clampCrop r).y ∧
    (clampCrop r).x + (clampCrop r).w ≤ 1 ∧
    (clampCrop r).y + (clampCrop r).h ≤ 1 ∧
    2/100 ≤ (clampCrop r).w ∧ 2/100 ≤ (clampCrop r).h := by
  have hw1 : max (2/100) (min 1 r.w) ≤ (1 : ℚ) :=
    max_le (by norm_num) (min_le_left _ _)
  have hh1 : max (2/100) (min 1 r.h) ≤ (1 : ℚ) :=
    max_le (by norm_num) (min_le_left _ _)
  have hx : max 0 (min (1 - max (2/100) (min 1 r.w)) r.x)
      ≤ 1 - max (2/100) (min 1 r.w) :=
    max_le (by linarith) (min_le_left _ _)
  have hy : max 0 (min (1 - max (2/100) (min 1 r.h)) r.y)
      ≤ 1 - max (2/100) (min 1 r.h) :=
    max_le (by linarith) (min_le_left _ _)
  refine ⟨le_max_left _ _, le_max_left _ _, by simp only [clampCrop]; linarith,
    by simp only [clampCrop]; linarith, le_max_left _ _, le_max_left _ _⟩

/-- C1: every crop drag — any mode, any rational deltas, with or without
aspect-lock — produces a rectangle with `0 ≤ x`, `0 ≤ y`, `x + w ≤ 1`,
`y + h ≤ 1`, `w ≥ 0.02`, `h ≥ 0.02`, and `handleCropDrag` is exactly the
raw drag update followed by the clamp stage (w, h clamped to `[0.02, 1]`
first, then x to `[0, 1-w]` and y to `[0, 1-h]`). -/
theorem handleCropDrag_invariant (mode : DragMode) (dx dy : ℚ)
    (lockAspect : Bool) (tw th : ℚ) (r0 : CropRect) :
    0 ≤ (handleCropDrag mode dx dy lockAspect tw th r0).x ∧
    0 ≤ (handleCropDrag mode dx dy lockAspect tw th r0).y ∧
    (handleCropDrag mode dx dy lockAspect tw th r0).x
      + (handleCropDrag mode dx dy lockAspect tw th r0).w ≤ 1 ∧
    (handleCropDrag mode dx dy lockAspect tw th r0).y
      + (handleCropDrag mode dx dy lockAspect tw th r0).h ≤ 1 ∧
    2/100 ≤ (handleCropDrag mode dx dy lockAspect tw th r0).w ∧
    2/100 ≤ (handleCropDrag mode dx dy lockAspect tw th r0).h ∧
    handleCropDrag mode dx dy lockAspect tw th r0
      = clampCrop (rawCropDrag mode dx dy lockAspect tw th r0) := by
  obtain ⟨h1, h2, h3, h4, h5, h6⟩ :=
    clampCrop_spec (rawCropDrag mode dx dy lockAspect tw th r0)
  exact ⟨h1, h2, h3, h4, h5, h6, rfl⟩

/-! ## Pixelate undo/redo (`undoStroke`/`redoStroke`, main.ts lines 767–779) -/

/-- `undoStroke()`: if the applied sequence is non-empty, pop its last
stroke and push it onto the redo stack. -/
def undoStroke (s : AppState) : AppState :=
  if h : 0 < s.pixelateStrokes.length then
    { s with
      pixelateStrokes := s.pixelateStrokes.dropLast
      pixelateRedoStack :=
        s.pixelateRedoStack ++ [s.pixelateStrokes.getLast (List.length_pos.mp h)] }
  else s

/-- `redoStroke()`: if the redo stack is non-empty, pop its last stroke
and push it back onto the applied sequence. -/
def redoStroke (s : AppState) : AppState :=
  if h : 0 < s.pixelateRedoStack.length then
    { s with
      pixelateRedoStack := s.pixelateRedoStack.dropLast
      pixelateStrokes :=
        s.pixelateStrokes ++ [s.pixelateRedoStack.getLast (List.length_pos.mp h)] }
  else s

/-- C4: for a non-empty applied sequence, undo followed by redo restores
both the applied sequence and the redo stack exactly; undo on an empty
applied sequence and redo on an empty redo stack are both no-ops on the
whole state. -/
theorem undoStroke_redoStroke_roundtrip (s : AppState) :
    (s.pixelateStrokes ≠ [] →
      (redoStroke (undoStroke s)).pixelateStrokes = s.pixelateStrokes ∧
      (redoStroke (undoStroke s)).pixelateRedoStack = s.pixelateRedoStack) ∧
    (s.pixelateStrokes = [] → undoStroke s = s) ∧
    (s.pixelateRedoStack = [] → redoStroke s = s) := by
  refine ⟨?_, ?_, ?_⟩
  · intro h
    have hlen : 0 < s.pixelateStrokes.length := List.length_pos.mpr h
    have hredo :
        0 < (s.pixelateRedoStack ++ [s.pixelateStrokes.getLast h]).length := by
      simp
    unfold undoStroke redoStroke
    rw [dif_pos hlen]
    simp only [dif_pos hredo]
    constructor
    · simp [List.getLast_append, List.dropLast_append_getLast h]
    · simp
  · intro h
    unfold undoStroke
    rw [dif_neg (by simp [h])]
  · intro h
    unfold redoStroke
    rw [dif_neg (by simp [h])]

/-- C4 witness: concrete round trip and concrete no-ops. -/
theorem undoStroke_redoStroke_roundtrip_witness :
    (let s := { initState with
                pixelateStrokes := [⟨[(1/2, 1/2)], 1/20⟩, ⟨[(1/4, 3/4)], 1/10⟩],
                pixelateRedoStack := [⟨[(0, 0)], 1⟩] }
     (redoStroke (undoStroke s)).pixelateStrokes = s.pixelateStrokes ∧
     (redoStroke (undoStroke s)).pixelateRedoStack = s.pixelateRedoStack) ∧
    undoStroke initState = initState ∧
    redoStroke initState = initState := by
  refine ⟨(undoStroke_redoStroke_roundtrip _).1 (by decide),
    (undoStroke_redoStroke_roundtrip initState).2.1 rfl,
    (undoStroke_redoStroke_roundtrip initState).2.2 rfl⟩

/-! ## Zoom (`setZoom`/`zoomFit`, main.ts lines 480–504) -/

/-- The clamping applied by `setZoom`: zoom is kept in `[0.1, 5]`. -/
def setZoomValue (z : ℚ) : ℚ := max (1/10) (min 5 z)

/-- `setZoom(z)` restricted to its state mutation. -/
def setZoom (s : AppState) (z : ℚ) : AppState :=
  { s with zoom := setZoomValue z }

/-- The rotation-aware display dimensions used by `zoomFit` (and by
`renderCanvas`/`getCanvasCoords`): natural width/height swapped when the
rotation is 90° or 270°. -/
def displayDims (s : AppState) : ℚ × ℚ :=
  if s.rotation = 90 ∨ s.rotation = 270 then
    ((s.imageHeight : ℚ), (s.imageWidth : ℚ))
  else
    ((s.imageWidth : ℚ), (s.imageHeight : ℚ))

/-- `zoomFit()` given the container's client size `cw × ch`: compute the
fit scale with a 40-pixel margin, reset the pan, and pass the scale
through `setZoom`. -/
def zoomFit (s : AppState) (cw ch : ℚ) : AppState :=
  let iw := (displayDims s).1
  let ih := (displayDims s).2
  let scale := min (min ((cw - 40)/iw) ((ch - 40)/ih)) 1
  setZoom { s with panX := 0, panY := 0 } scale

/-- C5 counterexample: for a 400×300 container and an 8000×6000 image the
claimed zoom `min(360/8000, 260/6000, 1) = 13/300` is below the 0.1 zoom
floor, so `zoomFit` (which routes through `setZoom`'s clamp) yields 1/10
instead. -/
theorem zoomFit_claim_counterexample :
    (zoomFit { initState with imageWidth := 8000, imageHeight := 6000 }
        400 300).zoom
      ≠ min (min ((400 - 40)/8000) ((300 - 40)/6000)) 1 := by
  have h1 : (zoomFit { initState with imageWidth := 8000, imageHeight := 6000 }
      400 300).zoom = 1/10 := by
    show setZoomValue _ = 1/10
    rw [displayDims]
    norm_num [setZoomValue, initState]
  have h2 : min (min ((400 - 40)/8000) ((300 - 40)/6000)) (1 : ℚ) = 13/300 := by
    norm_num
  rw [h1, h2]
  norm_num

/-- C5 (amended): `zoomFit` resets the pan to (0,0) and sets the zoom to
the fit scale `min((cw-40)/dispW, (ch-40)/dispH, 1)` clamped into
`[0.1, 5]` by `setZoom`. -/
theorem zoomFit_spec (s : AppState) (cw ch : ℚ) :
    (zoomFit s cw ch).zoom
      = max (1/10) (min 5
          (min (min ((cw - 40)/(displayDims s).1) ((ch - 40)/(displayDims s).2)) 1)) ∧
    (zoomFit s cw ch).panX = 0 ∧ (zoomFit s cw ch).panY = 0 :=
  ⟨rfl, rfl, rfl⟩

/-! ## Export (`doExport`, main.ts lines 789–846) -/

/-- The `bg_removal` field of the export payload. -/
structure BgRemoval where
  enabled : Bool
  color : ℕ × ℕ × ℕ
  tolerance : ℚ
deriving DecidableEq, Repr

/-- The payload of the `export_image` backend command, as assembled by
`doExport`. -/
structure ExportPayload where
  source_path : String
  output_path : String
  output_format : String
  jpeg_quality : ℕ
  target_width : ℚ
  target_height : ℚ
  crop : Option CropRect
  rotation : ℤ
  flip_h : Bool
  flip_v : Bool
  grayscale : Bool
  brightness : ℚ
  contrast : ℚ
  pixelate_strokes : List PixelateStroke
  pixelate_block_size : ℕ
  bg_removal : Option BgRemoval
  mode : String
deriving DecidableEq, Repr

/-- `doExport()` restricted to the request it issues: `none` when there is
no source path (early return), otherwise the payload built from the
current state.  The user-chosen output path, format and JPEG quality come
from the dialog/modal and are passed as arguments. -/
def doExport (s : AppState) (outputPath format : String) (quality : ℕ) :
    Option ExportPayload :=
  match s.sourcePath with
  | none => none
  | some src => some
    { source_path := src
      output_path := outputPath
      output_format := format
      jpeg_quality := quality
      target_width := s.targetWidth
      target_height := s.targetHeight
      crop :=
        if s.cropW < 1 ∨ s.cropH < 1 ∨ s.cropX > 0 ∨ s.cropY > 0 then
          some ⟨s.cropX, s.cropY, s.cropW, s.cropH⟩
        else none
      rotation := s.rotation
      flip_h := s.flipH
      flip_v := s.flipV
      grayscale := s.grayscale
      brightness := s.brightness
      contrast := s.contrast
      pixelate_strokes := s.pixelateStrokes
      pixelate_block_size := s.pixelateBlockSize
      bg_removal :=
        if s.bgEnabled then some ⟨true, s.bgColor, s.bgTolerance / 100⟩
        else none
      mode := s.scaleMode }

/-- C6: the export request carries a crop field iff the crop rectangle
differs from the full frame (`x > 0` or `y > 0` or `w < 1` or `h < 1`);
in particular for the exact full frame the crop field is `null`. -/
theorem doExport_crop_iff (s : AppState) (outputPath format : String)
    (quality : ℕ) (p : ExportPayload)
    (hp : doExport s outputPath format quality = some p) :
    (p.crop ≠ none ↔
      s.cropX > 0 ∨ s.cropY > 0 ∨ s.cropW < 1 ∨ s.cropH < 1) ∧
    (s.cropX = 0 ∧ s.cropY = 0 ∧ s.cropW = 1 ∧ s.cropH = 1 →
      p.crop = none) := by
  match hsrc : s.sourcePath with
  | none => simp [doExport, hsrc] at hp
  | some src =>
    simp only [doExport, hsrc] at hp
    obtain rfl : p = _ := (Option.some_inj.mp hp).symm
    constructor
    · by_cases hc : s.cropW < 1 ∨ s.cropH < 1 ∨ s.cropX > 0 ∨ s.cropY > 0
      · simp only [if_pos hc]
        exact ⟨fun _ => by tauto, fun _ => by simp⟩
      · simp only [if_neg hc]
        exact ⟨fun h => absurd rfl h, fun h => absurd (by tauto) hc⟩
    · rintro ⟨hx, hy, hw, hh⟩
      rw [if_neg]
      simp [hx, hy, hw, hh]

/-- A loaded state whose crop rectangle is exactly the full frame. -/
def fullFrameState : AppState :=
  { initState with
    sourcePath := some "a.png", cropX := 0, cropY := 0, cropW := 1, cropH := 1 }

/-- A loaded state whose crop rectangle differs from the full frame
(the initial 0.1/0.1/0.8/0.8 rectangle). -/
def shiftedCropState : AppState :=
  { initState with sourcePath := some "a.png" }

/-- C6 witness: the full-frame state yields no crop field, a shifted crop
yields one. -/
theorem doExport_crop_iff_witness :
    (∃ p, doExport fullFrameState "out.png" "png" 90 = some p ∧
      p.crop = none) ∧
    (∃ q, doExport shiftedCropState "out.png" "png" 90 = some q ∧
      q.crop ≠ none) := by
  constructor
  · refine ⟨_, rfl, ?_⟩
    exact (doExport_crop_iff fullFrameState "out.png" "png" 90 _ rfl).2
      (by norm_num [fullFrameState, initState])
  · refine ⟨_, rfl, ?_⟩
    exact (doExport_crop_iff shiftedCropState "out.png" "png" 90 _ rfl).1.mpr
      (by norm_num [shiftedCropState, initState])

/-! ## Pixelate gesture handlers (main.ts lines 536–635)

The handlers take the normalized pointer coordinates `(nx, ny)` produced
by `getCanvasCoords` as arguments; module-level drag bookkeeping for the
select/crop tools (`isDragging`, `cropDragMode`, …) lives outside
`AppState` in the source and is modelled separately
(`handleCropDrag` takes it as arguments), and `pickColor`'s
surface-dependent `bgColor` update (eyedropper) reads the canvas, an
external collaborator, so the non-pixelate branches leave `AppState`
unchanged here. -/

/-- The `pixelate` branch of `onCanvasMouseDown`: if the start point is
inside `[0,1]×[0,1]`, start painting with a fresh one-point stroke whose
radius is `brushSize / max(displayWidth, displayHeight)`, and clear the
redo stack. -/
def onCanvasMouseDown (s : AppState) (nx ny : ℚ) : AppState :=
  match s.tool with
  | Tool.pixelate =>
    if 0 ≤ nx ∧ nx ≤ 1 ∧ 0 ≤ ny ∧ ny ≤ 1 then
      let isRotated := s.rotation = 90 ∨ s.rotation = 270
      let maxDim := max
        (if isRotated then (s.imageHeight : ℚ) else (s.imageWidth : ℚ))
        (if isRotated then (s.imageWidth : ℚ) else (s.imageHeight : ℚ))
      { s with
        isPixelatePainting := true
        currentStroke := some ⟨[(nx, ny)], (s.pixelateBrushSize : ℚ) / maxDim⟩
        pixelateRedoStack := [] }
    else s
  | _ => s

/-- The `pixelate` branch of `onCanvasMouseMove`.  The second component
is the applied-strokes list seen by `renderCanvas` during the event: the
source pushes the in-progress stroke, renders, and pops it again, so the
rendered list is the push result while the state keeps the popped list.
When no live-preview render happens the second component is just the
(unchanged) applied sequence. -/
def onCanvasMouseMovePixelate (s : AppState) (nx ny : ℚ) :
    AppState × List PixelateStroke :=
  if s.tool = Tool.pixelate ∧ s.isPixelatePainting = true then
    match s.currentStroke with
    | some cur =>
      if 0 ≤ nx ∧ nx ≤ 1 ∧ 0 ≤ ny ∧ ny ≤ 1 then
        let cur' : PixelateStroke := ⟨cur.points ++ [(nx, ny)], cur.radius⟩
        let pushed := s.pixelateStrokes ++ [cur']
        ({ s with
            currentStroke := some cur'
            pixelateStrokes := pushed.dropLast },
          pushed)
      else (s, s.pixelateStrokes)
    | none => (s, s.pixelateStrokes)
  else (s, s.pixelateStrokes)

/-- `onCanvasMouseUp` (also used for `mouseleave`): when painting with an
in-progress stroke, commit it to the applied sequence and leave the
painting state. -/
def onCanvasMouseUp (s : AppState) : AppState :=
  if s.isPixelatePainting = true then
    match s.currentStroke with
    | some cur =>
      { s with
        pixelateStrokes := s.pixelateStrokes ++ [cur]
        currentStroke := none
        isPixelatePainting := false }
    | none => s
  else s

/-- A complete paint gesture: mouse down at `(startX, startY)`, a list of
pointer moves, then mouse up. -/
def paintGesture (s : AppState) (startX startY : ℚ)
    (moves : List (ℚ × ℚ)) : AppState :=
  onCanvasMouseUp
    (moves.foldl (fun t p => (onCanvasMouseMovePixelate t p.1 p.2).1)
      (onCanvasMouseDown s startX startY))

theorem mouseMove_fields (s : AppState) (nx ny : ℚ) :
    (onCanvasMouseMovePixelate s nx ny).1.tool = s.tool ∧
    (onCanvasMouseMovePixelate s nx ny).1.isPixelatePainting
      = s.isPixelatePainting ∧
    (onCanvasMouseMovePixelate s nx ny).1.pixelateStrokes
      = s.pixelateStrokes ∧
    (onCanvasMouseMovePixelate s nx ny).1.pixelateRedoStack
      = s.pixelateRedoStack ∧
    ((onCanvasMouseMovePixelate s nx ny).1.currentStroke.isSome
      = true ∨ (onCanvasMouseMovePixelate s nx ny).1.currentStroke
      = s.currentStroke) := by
  unfold onCanvasMouseMovePixelate
  split
  · split
    · split
      · refine ⟨rfl, rfl, ?_, rfl, Or.inl rfl⟩
        exact List.dropLast_concat
      · exact ⟨rfl, rfl, rfl, rfl, Or.inr rfl⟩
    · exact ⟨rfl, rfl, rfl, rfl, Or.inr rfl⟩
  · exact ⟨rfl, rfl, rfl, rfl, Or.inr rfl⟩

theorem foldMoves_invariant (moves : List (ℚ × ℚ)) (st : AppState)
    (ht : st.tool = Tool.pixelate) (hp : st.isPixelatePainting = true)
    (hc : st.currentStroke.isSome = true) :
    (moves.foldl (fun t p => (onCanvasMouseMovePixelate t p.1 p.2).1)
        st).tool = Tool.pixelate ∧
    (moves.foldl (fun t p => (onCanvasMouseMovePixelate t p.1 p.2).1)
        st).isPixelatePainting = true ∧
    (moves.foldl (fun t p => (onCanvasMouseMovePixelate t p.1 p.2).1)
        st).currentStroke.isSome = true ∧
    (moves.foldl (fun t p => (onCanvasMouseMovePixelate t p.1 p.2).1)
        st).pixelateStrokes = st.pixelateStrokes ∧
    (moves.foldl (fun t p => (onCanvasMouseMovePixelate t p.1 p.2).1)
        st).pixelateRedoStack = st.pixelateRedoStack := by
  induction moves generalizing st with
  | nil => exact ⟨ht, hp, hc, rfl, rfl⟩
  | cons p ps ih =>
    obtain ⟨h1, h2, h3, h4, h5⟩ :=
      mouseMove_fields st p.1 p.2
    have hc' : ((onCanvasMouseMovePixelate st p.1 p.2).1).currentStroke.isSome
        = true := by
      rcases h5 with h5 | h5
      · exact h5
      · rw [h5]; exact hc
    obtain ⟨g1, g2, g3, g4, g5⟩ :=
      ih ((onCanvasMouseMovePixelate st p.1 p.2).1)
        (h1.trans ht) (h2.trans hp) hc'
    exact ⟨g1, g2, g3, g4.trans h3, g5.trans h4⟩

/-- C3: a complete paint gesture that starts in bounds with the pixelate
tool active appends exactly one stroke to the applied sequence and leaves
the redo stack empty afterwards (any strokes that were in the redo stack
before the gesture are discarded); afterwards no stroke is in progress. -/
theorem paintGesture_commit (s : AppState) (startX startY : ℚ)
    (moves : List (ℚ × ℚ)) (ht : s.tool = Tool.pixelate)
    (hb : 0 ≤ startX ∧ startX ≤ 1 ∧ 0 ≤ startY ∧ startY ≤ 1) :
    (∃ st, (paintGesture s startX startY moves).pixelateStrokes
        = s.pixelateStrokes ++ [st]) ∧
    (paintGesture s startX startY moves).pixelateRedoStack = [] ∧
    (paintGesture s startX startY moves).isPixelatePainting = false ∧
    (paintGesture s startX startY moves).currentStroke = none := by
  have hdown : onCanvasMouseDown s startX startY
      = { s with
          isPixelatePainting := true
          currentStroke := some ⟨[(startX, startY)],
            (s.pixelateBrushSize : ℚ) /
              max (if s.rotation = 90 ∨ s.rotation = 270
                   then (s.imageHeight : ℚ) else (s.imageWidth : ℚ))
                  (if s.rotation = 90 ∨ s.rotation = 270
                   then (s.imageWidth : ℚ) else (s.imageHeight : ℚ))⟩
          pixelateRedoStack := [] } := by
    unfold onCanvasMouseDown
    rw [ht]
    simp only [if_pos hb]
  set s1 := onCanvasMouseDown s startX startY with hs1
  obtain ⟨h1, h2, h3, h4, h5⟩ := foldMoves_invariant moves s1
    (by rw [hdown]; exact ht) (by rw [hdown]) (by rw [hdown]; rfl)
  set s2 := moves.foldl (fun t p => (onCanvasMouseMovePixelate t p.1 p.2).1) s1
    with hs2
  obtain ⟨c, hcc⟩ := Option.isSome_iff_exists.mp h3
  have hup : paintGesture s startX startY moves
      = { s2 with
          pixelateStrokes := s2.pixelateStrokes ++ [c]
          currentStroke := none
          isPixelatePainting := false } := by
    unfold paintGesture
    rw [← hs1, ← hs2]
    unfold onCanvasMouseUp
    rw [h2, hcc]
    simp
  rw [hup]
  refine ⟨⟨c, ?_⟩, ?_, rfl, rfl⟩
  · show s2.pixelateStrokes ++ [c] = s.pixelateStrokes ++ [c]
    rw [h4, hdown]
  · show s2.pixelateRedoStack = []
    rw [h5, hdown]

/-- A mid-paint state used as witness input: pixelate tool active, one
committed stroke, one stroke in progress, one redo entry. -/
def paintingState : AppState :=
  { initState with
    sourcePath := some "a.png"
    imageWidth := 800
    imageHeight := 600
    tool := Tool.pixelate
    pixelateStrokes := [⟨[(1/4, 1/4)], 1/40⟩]
    pixelateRedoStack := [⟨[(3/4, 3/4)], 1/40⟩]
    isPixelatePainting := true
    currentStroke := some ⟨[(1/2, 1/2)], 1/40⟩ }

/-- C3 witness: a concrete gesture (one in-bounds and one out-of-bounds
move) on a state with a non-empty redo stack. -/
theorem paintGesture_commit_witness :
    ({ paintingState with
        isPixelatePainting := false, currentStroke := none } : AppState).tool
      = Tool.pixelate ∧
    (0 ≤ (1 : ℚ)/2 ∧ (1 : ℚ)/2 ≤ 1 ∧ 0 ≤ (1 : ℚ)/2 ∧ (1 : ℚ)/2 ≤ 1) ∧
    ((∃ st, (paintGesture { paintingState with
          isPixelatePainting := false, currentStroke := none }
        (1/2) (1/2) [(1/4, 1/4), (2, 2)]).pixelateStrokes
        = ({ paintingState with
            isPixelatePainting := false,
            currentStroke := none } : AppState).pixelateStrokes ++ [st]) ∧
      (paintGesture { paintingState with
          isPixelatePainting := false, currentStroke := none }
        (1/2) (1/2) [(1/4, 1/4), (2, 2)]).pixelateRedoStack = [] ∧
      (paintGesture { paintingState with
          isPixelatePainting := false, currentStroke := none }
        (1/2) (1/2) [(1/4, 1/4), (2, 2)]).isPixelatePainting = false ∧
      (paintGesture { paintingState with
          isPixelatePainting := false, currentStroke := none }
        (1/2) (1/2) [(1/4, 1/4), (2, 2)]).currentStroke = none) := by
  refine ⟨rfl, by norm_num, paintGesture_commit _ (1/2) (1/2) _ rfl (by norm_num)⟩

/-- C7: a pointer move during a paint stroke renders the preview from the
applied sequence with the in-progress stroke (including the new point)
appended, yet the applied sequence stored in the state is unchanged by
the event — the in-progress stroke is never persisted before gesture
end. -/
theorem mouseMove_live_preview (s : AppState) (nx ny : ℚ) :
    (onCanvasMouseMovePixelate s nx ny).1.pixelateStrokes
      = s.pixelateStrokes ∧
    (∀ cur, s.currentStroke = some cur → s.tool = Tool.pixelate →
      s.isPixelatePainting = true →
      0 ≤ nx → nx ≤ 1 → 0 ≤ ny → ny ≤ 1 →
      (onCanvasMouseMovePixelate s nx ny).2
        = s.pixelateStrokes ++ [⟨cur.points ++ [(nx, ny)], cur.radius⟩]) := by
  constructor
  · exact (mouseMove_fields s nx ny).2.2.1
  · intro cur hcur htool hpaint h1 h2 h3 h4
    unfold onCanvasMouseMovePixelate
    rw [if_pos ⟨htool, hpaint⟩]
    simp only [hcur]
    rw [if_pos ⟨h1, h2, h3, h4⟩]

/-- C7 witness: the concrete mid-paint state: the render during the move
sees the in-progress stroke appended, the state afterwards does not. -/
theorem mouseMove_live_preview_witness :
    (onCanvasMouseMovePixelate paintingState (1/3) (2/3)).1.pixelateStrokes
      = paintingState.pixelateStrokes ∧
    (onCanvasMouseMovePixelate paintingState (1/3) (2/3)).2
      = paintingState.pixelateStrokes
        ++ [⟨[(1/2, 1/2), (1/3, 2/3)], 1/40⟩] := by
  obtain ⟨h1, h2⟩ := mouseMove_live_preview paintingState (1/3) (2/3)
  exact ⟨h1, h2 ⟨[(1/2, 1/2)], 1/40⟩ rfl rfl rfl (by norm_num) (by norm_num)
    (by norm_num) (by norm_num)⟩

/-! ## Opening and applying (`loadImage` lines 307–356, `applyEdits`
lines 937–1005) -/

/-- The `AppState` mutation of `loadImage` on a successful `open_image`
round trip: new Image Session, all edits reset, crop reset to the full
frame, crop target size set to the natural dimensions. -/
def loadImage (s : AppState) (path : String) (info : ImageInfo) : AppState :=
  { s with
    sourcePath := some path
    imageWidth := info.width
    imageHeight := info.height
    rotation := 0
    flipH := false
    flipV := false
    grayscale := false
    brightness := 0
    contrast := 0
    pixelateStrokes := []
    pixelateRedoStack := []
    cropX := 0
    cropY := 0
    cropW := 1
    cropH := 1
    targetWidth := (info.width : ℚ)
    targetHeight := (info.height : ℚ) }

/-- The payload of the `apply_edits` backend command. -/
structure ApplyPayload where
  source_path : String
  rotation : ℤ
  flip_h : Bool
  flip_v : Bool
  grayscale : Bool
  brightness : ℚ
  contrast : ℚ
  pixelate_strokes : List PixelateStroke
  pixelate_block_size : ℕ
deriving DecidableEq, Repr

/-- The `hasEdits` guard of `applyEdits`. -/
def hasEdits (s : AppState) : Bool :=
  decide (s.rotation ≠ 0) || s.flipH || s.flipV || s.grayscale ||
  decide (s.brightness ≠ 0) || decide (s.contrast ≠ 0) ||
  decide (0 < s.pixelateStrokes.length)

/-- `applyEdits()`: the request it issues (`none` on the early returns)
and the state afterwards.  The backend's successful response (`info`,
from `apply_edits`) and the new backing path (from `get_applied_path`)
are passed as arguments; on a failed round trip the state is unchanged
(the `catch` branch only shows a toast). -/
def applyEdits (s : AppState) (info : ImageInfo) (appliedPath : String) :
    Option ApplyPayload × AppState :=
  match s.sourcePath with
  | none => (none, s)
  | some src =>
    if hasEdits s then
      (some ⟨src, s.rotation, s.flipH, s.flipV, s.grayscale, s.brightness,
        s.contrast, s.pixelateStrokes, s.pixelateBlockSize⟩,
        { s with
          sourcePath := some appliedPath
          imageWidth := info.width
          imageHeight := info.height
          rotation := 0
          flipH := false
          flipV := false
          grayscale := false
          brightness := 0
          contrast := 0
          pixelateStrokes := []
          pixelateRedoStack := [] })
    else (none, s)

/-- A state with pending adjustments (rotation) and non-default crop,
target-size and background-removal settings. -/
def editedState : AppState :=
  { initState with
    sourcePath := some "a.png"
    imageWidth := 800
    imageHeight := 600
    rotation := 90
    cropX := 1/4
    cropY := 1/4
    cropW := 1/2
    cropH := 1/2
    targetWidth := 300
    targetHeight := 200
    bgEnabled := true
    bgTolerance := 55 }

theorem applyEdits_snd_success (s : AppState) (info : ImageInfo)
    (appliedPath src : String) (hsrc : s.sourcePath = some src)
    (hedits : hasEdits s = true) :
    (applyEdits s info appliedPath).2
      = { s with
          sourcePath := some appliedPath
          imageWidth := info.width
          imageHeight := info.height
          rotation := 0
          flipH := false
          flipV := false
          grayscale := false
          brightness := 0
          contrast := 0
          pixelateStrokes := []
          pixelateRedoStack := [] } := by
  unfold applyEdits
  rw [hsrc]
  simp only [if_pos hedits]

/-- C2 counterexample: after a successful apply (response dimensions
640×480), the crop rectangle keeps its non-default value, the
background-removal flag stays enabled, and the crop target width stays at
its old value instead of becoming the new natural width — so not every
Edit State field is reset, and the target size does not become the
response's natural dimensions. -/
theorem applyEdits_reset_counterexample :
    (applyEdits editedState ⟨640, 480, "u"⟩ "p").2.cropX ≠ 0 ∧
    (applyEdits editedState ⟨640, 480, "u"⟩ "p").2.bgEnabled ≠ false ∧
    (applyEdits editedState ⟨640, 480, "u"⟩ "p").2.targetWidth ≠ 640 := by
  rw [applyEdits_snd_success editedState ⟨640, 480, "u"⟩ "p" "a.png" rfl rfl]
  have hx : editedState.cropX = 1/4 := rfl
  have hb : editedState.bgEnabled = true := rfl
  have hw : editedState.targetWidth = 300 := rfl
  refine ⟨?_, ?_, ?_⟩
  · show editedState.cropX ≠ 0
    rw [hx]; norm_num
  · show editedState.bgEnabled ≠ false
    rw [hb]; simp
  · show editedState.targetWidth ≠ 640
    rw [hw]; norm_num

/-- C2 (amended): a successful apply updates the source path and the
natural dimensions from the response, resets rotation, flips, grayscale,
brightness and contrast to their defaults and clears both stroke
sequences, and leaves every other field (crop rectangle, target size,
aspect lock, scale mode, brush/block sizes, background-removal
parameters, tool, zoom, pan) unchanged. -/
theorem applyEdits_success_state (s : AppState) (info : ImageInfo)
    (appliedPath src : String) (hsrc : s.sourcePath = some src)
    (hedits : hasEdits s = true) :
    (applyEdits s info appliedPath).2
      = { s with
          sourcePath := some appliedPath
          imageWidth := info.width
          imageHeight := info.height
          rotation := 0
          flipH := false
          flipV := false
          grayscale := false
          brightness := 0
          contrast := 0
          pixelateStrokes := []
          pixelateRedoStack := [] } :=
  applyEdits_snd_success s info appliedPath src hsrc hedits

/-- C2 witness: the amended description evaluated on the concrete edited
state. -/
theorem applyEdits_success_state_witness :
    editedState.sourcePath = some "a.png" ∧ hasEdits editedState = true ∧
    (applyEdits editedState ⟨640, 480, "u"⟩ "p").2
      = { editedState with
          sourcePath := some "p"
          imageWidth := 640
          imageHeight := 480
          rotation := 0
          flipH := false
          flipV := false
          grayscale := false
          brightness := 0
          contrast := 0
          pixelateStrokes := []
          pixelateRedoStack := [] } :=
  ⟨rfl, rfl, applyEdits_success_state editedState ⟨640, 480, "u"⟩ "p" "a.png" rfl rfl⟩

/-- C8 counterexample: after a successful apply the crop rectangle is not
reset to the full frame — it keeps the pre-apply value (1/4, 1/4, 1/2,
1/2). -/
theorem applyEdits_crop_not_reset_counterexample :
    ¬((applyEdits editedState ⟨640, 480, "u"⟩ "p").2.cropX = 0 ∧
      (applyEdits editedState ⟨640, 480, "u"⟩ "p").2.cropY = 0 ∧
      (applyEdits editedState ⟨640, 480, "u"⟩ "p").2.cropW = 1 ∧
      (applyEdits editedState ⟨640, 480, "u"⟩ "p").2.cropH = 1) := by
  rw [applyEdits_snd_success editedState ⟨640, 480, "u"⟩ "p" "a.png" rfl rfl]
  intro h
  have hx : editedState.cropX = 1/4 := rfl
  have h0 : editedState.cropX = 0 := h.1
  rw [hx] at h0
  norm_num at h0

theorem applyEdits_preserves_crop (s : AppState) (info : ImageInfo)
    (appliedPath : String) :
    (applyEdits s info appliedPath).2.cropX = s.cropX ∧
    (applyEdits s info appliedPath).2.cropY = s.cropY ∧
    (applyEdits s info appliedPath).2.cropW = s.cropW ∧
    (applyEdits s info appliedPath).2.cropH = s.cropH := by
  unfold applyEdits
  cases s.sourcePath
  · exact ⟨rfl, rfl, rfl, rfl⟩
  · by_cases h : hasEdits s = true
    · simp [h]
    · simp [h]

/-- C8 (amended): the crop rectangle is reset to the full frame
(0, 0, 1, 1) on open (`loadImage`); on apply (`applyEdits`, any branch)
it is left exactly as it was. -/
theorem crop_reset_on_open_only (s : AppState) (path : String)
    (info info' : ImageInfo) (appliedPath : String) :
    (loadImage s path info).cropX = 0 ∧
    (loadImage s path info).cropY = 0 ∧
    (loadImage s path info).cropW = 1 ∧
    (loadImage s path info).cropH = 1 ∧
    (applyEdits s info' appliedPath).2.cropX = s.cropX ∧
    (applyEdits s info' appliedPath).2.cropY = s.cropY ∧
    (applyEdits s info' appliedPath).2.cropW = s.cropW ∧
    (applyEdits s info' appliedPath).2.cropH = s.cropH := by
  obtain ⟨h1, h2, h3, h4⟩ := applyEdits_preserves_crop s info' appliedPath
  exact ⟨rfl, rfl, rfl, rfl, h1, h2, h3, h4⟩

/-- A state with no pending adjustments but non-default crop, target-size
and background-removal settings. -/
def noEditsState : AppState :=
  { initState with
    sourcePath := some "a.png"
    imageWidth := 800
    imageHeight := 600
    cropX := 1/4
    cropY := 1/4
    cropW := 1/2
    cropH := 1/2
    targetWidth := 300
    targetHeight := 200
    bgEnabled := true
    bgTolerance := 55 }

/-- C10: when rotation is 0, both flips are off, grayscale is off,
brightness and contrast are 0 and there are no applied strokes, the apply
operation issues no backend request and leaves the whole state unchanged,
whatever the crop, target-size or background-removal settings are. -/
theorem applyEdits_no_adjustments (s : AppState) (info : ImageInfo)
    (appliedPath : String) (h0 : s.rotation = 0) (h1 : s.flipH = false)
    (h2 : s.flipV = false) (h3 : s.grayscale = false)
    (h4 : s.brightness = 0) (h5 : s.contrast = 0)
    (h6 : s.pixelateStrokes = []) :
    applyEdits s info appliedPath = (none, s) := by
  have hedits : hasEdits s = false := by
    simp [hasEdits, h0, h1, h2, h3, h4, h5, h6]
  unfold applyEdits
  cases s.sourcePath
  · rfl
  · simp [hedits]

/-- C10 witness: the concrete no-adjustment state with non-default crop
and background-removal settings is left untouched and no request is
issued. -/
theorem applyEdits_no_adjustments_witness :
    applyEdits noEditsState ⟨640, 480, "u"⟩ "p" = (none, noEditsState) :=
  applyEdits_no_adjustments noEditsState ⟨640, 480, "u"⟩ "p"
    rfl rfl rfl rfl rfl rfl rfl

/-! ## Block averaging (`drawPixelatePreview`, main.ts lines 424–476)

The preview surface returned by `getImageData` is modelled as a function
from pixel coordinates to RGBA pixels (`data[(py*dw+px)*4 + c]` holds the
four channels of `f px py`).  For each cell `[bx, bx2) × [by, by2)` of
the block grid, the source sums the four channels over the cell, divides
by the pixel count, rounds with `Math.round`, and overwrites every pixel
of the cell with the rounded means (skipping empty cells).  The cell
bounds are supplied by the enclosing bounding-box/grid loops. -/

/-- One RGBA pixel of the preview surface. -/
structure Pixel where
  r : ℕ
  g : ℕ
  b : ℕ
  a : ℕ
deriving DecidableEq, Repr

/-- JavaScript `Math.round`: half-up rounding, `⌊q + 1/2⌋`. -/
def jsRound (q : ℚ) : ℤ := ⌊q + 1/2⌋

/-- The pixel coordinates of the cell `[cx1, cx2) × [cy1, cy2)` in the
order the summation loops visit them (`py` outer, `px` inner). -/
def cellCoords (cx1 cy1 cx2 cy2 : ℕ) : List (ℕ × ℕ) :=
  (List.range (cy2 - cy1)).flatMap fun j =>
    (List.range (cx2 - cx1)).map fun i => (cx1 + i, cy1 + j)

/-- The rounded per-channel arithmetic mean of a cell: channel sums over
the cell's pixels divided by the pixel count, passed through
`Math.round` (a `Uint8ClampedArray` store of such a mean of 0–255 values
is exact, hence the plain `toNat`). -/
def cellMean (f : ℕ → ℕ → Pixel) (coords : List (ℕ × ℕ)) : Pixel :=
  ⟨(jsRound ((coords.map fun c => ((f c.1 c.2).r : ℚ)).sum / coords.length)).toNat,
   (jsRound ((coords.map fun c => ((f c.1 c.2).g : ℚ)).sum / coords.length)).toNat,
   (jsRound ((coords.map fun c => ((f c.1 c.2).b : ℚ)).sum / coords.length)).toNat,
   (jsRound ((coords.map fun c => ((f c.1 c.2).a : ℚ)).sum / coords.length)).toNat⟩

/-- Processing of one cell `[cx1, cx2) × [cy1, cy2)`: when the cell has
at least one pixel (`count > 0`), every pixel of the cell is overwritten
with the cell's rounded channel means; otherwise the surface is
untouched. -/
def processCell (f : ℕ → ℕ → Pixel) (cx1 cy1 cx2 cy2 : ℕ) : ℕ → ℕ → Pixel :=
  if 0 < (cellCoords cx1 cy1 cx2 cy2).length then
    fun x y =>
      if cx1 ≤ x ∧ x < cx2 ∧ cy1 ≤ y ∧ y < cy2 then
        cellMean f (cellCoords cx1 cy1 cx2 cy2)
      else f x y
  else f

theorem cellCoords_mem {cx1 cy1 cx2 cy2 : ℕ} {c : ℕ × ℕ}
    (hc : c ∈ cellCoords cx1 cy1 cx2 cy2) :
    cx1 ≤ c.1 ∧ c.1 < cx2 ∧ cy1 ≤ c.2 ∧ c.2 < cy2 := by
  simp only [cellCoords, List.mem_flatMap, List.mem_map, List.mem_range] at hc
  obtain ⟨j, hj, i, hi, hij⟩ := hc
  subst hij
  refine ⟨Nat.le_add_right _ _, by omega, Nat.le_add_right _ _, by omega⟩

theorem cell_channel_sum (f : ℕ → ℕ → Pixel) (coords : List (ℕ × ℕ))
    (ch : Pixel → ℕ) (v : ℕ) (h : ∀ c ∈ coords, ch (f c.1 c.2) = v) :
    (coords.map fun c => (ch (f c.1 c.2) : ℚ)).sum = coords.length * v := by
  have hmap : (coords.map fun c => (ch (f c.1 c.2) : ℚ))
      = coords.map fun _ => (v : ℚ) :=
    List.map_congr_left (fun c hc => by rw [h c hc])
  rw [hmap, List.map_const', List.sum_replicate, nsmul_eq_mul]

theorem jsRound_natCast (v : ℕ) : jsRound (v : ℚ) = (v : ℤ) := by
  unfold jsRound
  rw [Int.floor_eq_iff]
  constructor
  · push_cast
    linarith
  · push_cast
    linarith

/-- C9: block averaging is idempotent on a uniform cell — if every pixel
of the cell `[cx1, cx2) × [cy1, cy2)` holds the same RGBA value, running
the cell's rounded-mean-and-overwrite step leaves every pixel of the
surface unchanged (the rounded mean of N identical channel values is
that value). -/
theorem processCell_uniform_id (f : ℕ → ℕ → Pixel) (p : Pixel)
    (cx1 cy1 cx2 cy2 : ℕ)
    (huni : ∀ x y, cx1 ≤ x → x < cx2 → cy1 ≤ y → y < cy2 → f x y = p) :
    ∀ x y, processCell f cx1 cy1 cx2 cy2 x y = f x y := by
  intro x y
  unfold processCell
  by_cases hcount : 0 < (cellCoords cx1 cy1 cx2 cy2).length
  · rw [if_pos hcount]
    by_cases hin : cx1 ≤ x ∧ x < cx2 ∧ cy1 ≤ y ∧ y < cy2
    · rw [if_pos hin]
      have hpt : ∀ c ∈ cellCoords cx1 cy1 cx2 cy2, f c.1 c.2 = p := by
        intro c hc
        obtain ⟨h1, h2, h3, h4⟩ := cellCoords_mem hc
        exact huni c.1 c.2 h1 h2 h3 h4
      have hlen : ((cellCoords cx1 cy1 cx2 cy2).length : ℚ) ≠ 0 := by
        exact_mod_cast Nat.pos_iff_ne_zero.mp hcount
      have hmean : cellMean f (cellCoords cx1 cy1 cx2 cy2) = p := by
        unfold cellMean
        rw [cell_channel_sum f _ Pixel.r p.r (fun c hc => by rw [hpt c hc]),
          cell_channel_sum f _ Pixel.g p.g (fun c hc => by rw [hpt c hc]),
          cell_channel_sum f _ Pixel.b p.b (fun c hc => by rw [hpt c hc]),
          cell_channel_sum f _ Pixel.a p.a (fun c hc => by rw [hpt c hc]),
          mul_div_cancel_left₀ _ hlen, mul_div_cancel_left₀ _ hlen,
          mul_div_cancel_left₀ _ hlen, mul_div_cancel_left₀ _ hlen,
          jsRound_natCast, jsRound_natCast, jsRound_natCast, jsRound_natCast]
        simp
      rw [hmean, huni x y hin.1 hin.2.1 hin.2.2.1 hin.2.2.2]
    · rw [if_neg hin]
  · rw [if_neg hcount]

/-- C9 witness: a concrete 2×2 uniform cell over a constant surface is
left unchanged at an interior pixel. -/
theorem processCell_uniform_id_witness :
    processCell (fun _ _ => (⟨10, 20, 30, 255⟩ : Pixel)) 1 1 3 3 2 2
      = (⟨10, 20, 30, 255⟩ : Pixel) :=
  (processCell_uniform_id (fun _ _ => ⟨10, 20, 30, 255⟩) ⟨10, 20, 30, 255⟩
    1 1 3 3 (fun _ _ _ _ _ _ => rfl) 2 2).trans rfl

end PixelArgon
